import Mathlib

/-!
Shallow embedding of the docsphere-scribe audio pipeline and meeting
lifecycle (src/utils/audioUtils.ts, src/services/geminiService.ts,
src/App.tsx), with theorems checking the specification's claims.

Conventions of the embedding:
- JavaScript numbers (IEEE doubles) and Float32Array samples are modelled
  as rationals; at the points the claims exercise (clamping, scaling by
  32767/32768, window means) the JavaScript arithmetic is exact, so the
  rational model coincides with the source semantics there.
- `Math.round` is `round` on the rationals: both compute the floor of
  `x + 1/2` (round half toward positive infinity).
- `Int16Array` element stores go through JavaScript ToInt16: truncation
  toward zero followed by a two's-complement wrap modulo 2^16.
-/

/-- JavaScript truncation toward zero (the integer step of ToInt16). -/
def jsTrunc (q : ℚ) : ℤ := if q < 0 then ⌈q⌉ else ⌊q⌋

/-- Two's-complement wrap of an integer into a signed 16-bit value,
as performed by an Int16Array element store. -/
def toInt16 (n : ℤ) : ℤ := (n + 2 ^ 15) % 2 ^ 16 - 2 ^ 15

/-- The clamp `Math.max(-1, Math.min(1, x))` from float32ToPCM16
(src/utils/audioUtils.ts line 7). -/
def jsClamp (q : ℚ) : ℚ := max (-1) (min 1 q)

/-- One sample of float32ToPCM16 (src/utils/audioUtils.ts line 8):
`int16Array[i] = s < 0 ? s * 0x8000 : s * 0x7FFF` after clamping. -/
def pcm16Sample (x : ℚ) : ℤ :=
  toInt16 (jsTrunc (if jsClamp x < 0 then jsClamp x * 32768 else jsClamp x * 32767))

/-- float32ToPCM16 (src/utils/audioUtils.ts lines 3-11): elementwise
clamp, asymmetric scale, and 16-bit store. -/
def float32ToPCM16 (xs : List ℚ) : List ℤ := xs.map pcm16Sample

theorem jsClamp_le_one (q : ℚ) : jsClamp q ≤ 1 := by
  unfold jsClamp
  exact max_le (by norm_num) (min_le_left _ _)

theorem neg_one_le_jsClamp (q : ℚ) : -1 ≤ jsClamp q := le_max_left _ _

theorem toInt16_eq_self {n : ℤ} (h1 : -32768 ≤ n) (h2 : n ≤ 32767) :
    toInt16 n = n := by
  unfold toInt16
  omega

theorem pcm16Sample_range (x : ℚ) :
    -32768 ≤ pcm16Sample x ∧ pcm16Sample x ≤ 32767 := by
  unfold pcm16Sample
  have hlo := neg_one_le_jsClamp x
  have hhi := jsClamp_le_one x
  set c := jsClamp x with hc
  by_cases hneg : c < 0
  · rw [if_pos hneg]
    have hv1 : (-32768 : ℚ) ≤ c * 32768 := by nlinarith
    have hv2 : c * 32768 ≤ 0 := by nlinarith
    have ht : jsTrunc (c * 32768) = ⌈c * 32768⌉ := by
      unfold jsTrunc
      rcases lt_or_ge (c * 32768) 0 with h | h
      · rw [if_pos h]
      · have : c * 32768 = 0 := le_antisymm hv2 h
        rw [if_neg (not_lt.mpr h), this]
        simp
    rw [ht]
    have h1 : (-32768 : ℤ) ≤ ⌈c * 32768⌉ := by
      have := Int.ceil_le_ceil hv1
      simpa using this
    have h2 : ⌈c * 32768⌉ ≤ 0 := by
      have := Int.ceil_le_ceil hv2
      simpa using this
    rw [toInt16_eq_self h1 (by omega)]
    omega
  · rw [if_neg hneg]
    push_neg at hneg
    have hv1 : (0 : ℚ) ≤ c * 32767 := by nlinarith
    have hv2 : c * 32767 ≤ 32767 := by nlinarith
    have ht : jsTrunc (c * 32767) = ⌊c * 32767⌋ := by
      unfold jsTrunc
      rw [if_neg (not_lt.mpr hv1)]
    rw [ht]
    have h1 : (0 : ℤ) ≤ ⌊c * 32767⌋ := by
      have := Int.floor_le_floor hv1
      simpa using this
    have h2 : ⌊c * 32767⌋ ≤ 32767 := by
      have := Int.floor_le_floor hv2
      simpa using this
    rw [toInt16_eq_self (by omega) h2]
    omega

theorem pcm16Sample_one : pcm16Sample 1 = 32767 := by
  have hc : jsClamp 1 = 1 := by unfold jsClamp; norm_num
  unfold pcm16Sample
  rw [hc]
  norm_num [jsTrunc, toInt16]

theorem pcm16Sample_neg_one : pcm16Sample (-1) = -32768 := by
  have hc : jsClamp (-1) = -1 := by unfold jsClamp; norm_num
  unfold pcm16Sample
  rw [hc]
  norm_num [jsTrunc, toInt16]
  decide

theorem pcm16Sample_zero : pcm16Sample 0 = 0 := by
  have hc : jsClamp 0 = 0 := by unfold jsClamp; norm_num
  unfold pcm16Sample
  rw [hc]
  norm_num [jsTrunc, toInt16]

/-- C1: every PCM16 output value lies in [-32768, 32767]; 1 maps to 32767,
-1 maps to -32768, 0 maps to 0 (float32ToPCM16, src/utils/audioUtils.ts
lines 3-11, with its clamp to [-1,1] and asymmetric 32767/32768 scaling). -/
theorem C1_pcm16_range_and_endpoints :
    (∀ xs : List ℚ, ∀ y ∈ float32ToPCM16 xs, -32768 ≤ y ∧ y ≤ 32767) ∧
    pcm16Sample 1 = 32767 ∧ pcm16Sample (-1) = -32768 ∧ pcm16Sample 0 = 0 := by
  refine ⟨?_, pcm16Sample_one, pcm16Sample_neg_one, pcm16Sample_zero⟩
  intro xs y hy
  rcases List.mem_map.mp hy with ⟨x, _, rfl⟩
  exact pcm16Sample_range x

theorem pcm16Sample_half : pcm16Sample (1/2) = 16383 := by
  have hc : jsClamp (1/2) = 1/2 := by unfold jsClamp; norm_num
  unfold pcm16Sample
  rw [hc]
  norm_num [jsTrunc, toInt16]

theorem C1_pcm16_witness :
    (16383 : ℤ) ∈ float32ToPCM16 [1/2] ∧ -32768 ≤ (16383 : ℤ) ∧ (16383 : ℤ) ≤ 32767 := by
  have he : float32ToPCM16 [1/2] = [16383] := by
    unfold float32ToPCM16
    rw [List.map_singleton, pcm16Sample_half]
  have hm : (16383 : ℤ) ∈ float32ToPCM16 [1/2] := by
    rw [he]
    exact List.mem_singleton_self _
  exact ⟨hm, C1_pcm16_range_and_endpoints.1 [1/2] 16383 hm⟩

/-!
downsampleBuffer (src/utils/audioUtils.ts lines 32-57).  The while loop is
embedded as structural recursion on the number of remaining output samples
(`result.length - offsetResult`); `offsetResult` and `offsetBuffer` are the
loop variables of the source.  With positive sample rates every
`Math.round` result the source stores in an offset is nonnegative, so the
offsets are carried as naturals via `Int.toNat`.  The inner for loop
(`for i = offsetBuffer; i < nextOffsetBuffer && i < buffer.length`) sums
exactly the slice of the buffer from `offsetBuffer` (inclusive) to
`min nextOffsetBuffer buffer.length` (exclusive); that slice is
`(buffer.drop offsetBuffer).take (min nextOffsetBuffer buffer.length - offsetBuffer)`
and `count` is its length.
-/

/-- One loop iteration's window: the input slice the source's inner for
loop visits when the outer loop is at `offsetBuffer` with bound
`nextOffsetBuffer`. -/
def windowSlice (buffer : List ℚ) (offsetBuffer nextOffsetBuffer : ℕ) : List ℚ :=
  (buffer.drop offsetBuffer).take (min nextOffsetBuffer buffer.length - offsetBuffer)

/-- The body of the source's while loop, recursing on the number of output
samples still to produce. -/
def downsampleGo (buffer : List ℚ) (r : ℚ) :
    ℕ → ℕ → ℕ → List ℚ
  | _, _, 0 => []
  | offsetResult, offsetBuffer, remaining + 1 =>
    let nextOffsetBuffer := (round (((offsetResult : ℚ) + 1) * r)).toNat
    let w := windowSlice buffer offsetBuffer nextOffsetBuffer
    (if 0 < w.length then w.sum / (w.length : ℚ) else 0) ::
      downsampleGo buffer r (offsetResult + 1) nextOffsetBuffer remaining

/-- downsampleBuffer (src/utils/audioUtils.ts lines 32-57): identity when
the rates match, otherwise box-filter decimation with
`newLength = Math.round(buffer.length / sampleRateRatio)` output samples,
where `sampleRateRatio = inputSampleRate / outputSampleRate`. -/
def downsampleBuffer (buffer : List ℚ) (inputSampleRate outputSampleRate : ℚ) :
    List ℚ :=
  if outputSampleRate = inputSampleRate then buffer
  else
    let r := inputSampleRate / outputSampleRate
    let newLength := (round ((buffer.length : ℚ) / r)).toNat
    downsampleGo buffer r 0 0 newLength

theorem downsampleGo_length (buffer : List ℚ) (r : ℚ) :
    ∀ remaining offsetResult offsetBuffer,
      (downsampleGo buffer r offsetResult offsetBuffer remaining).length = remaining := by
  intro remaining
  induction remaining with
  | zero => intro _ _; rfl
  | succ n ih =>
    intro offsetResult offsetBuffer
    simp only [downsampleGo, List.length_cons, ih]

theorem round_nonneg_of_nonneg {q : ℚ} (h : 0 ≤ q) : 0 ≤ round q := by
  rw [round_eq]
  have : (0 : ℤ) = ⌊(0 : ℚ) + 1/2⌋ := by norm_num
  rw [this]
  exact Int.floor_le_floor (by linarith)

/-- C2: with positive rates, downsampleBuffer is the identity when the
rates match, and otherwise produces exactly
`Math.round(N * outputRate / inputRate)` output samples for an N-sample
input (src/utils/audioUtils.ts lines 37-42). -/
theorem C2_downsample_length (buffer : List ℚ) (inputSampleRate outputSampleRate : ℚ)
    (hin : 0 < inputSampleRate) (hout : 0 < outputSampleRate) :
    (outputSampleRate = inputSampleRate →
      downsampleBuffer buffer inputSampleRate outputSampleRate = buffer) ∧
    (outputSampleRate ≠ inputSampleRate →
      ((downsampleBuffer buffer inputSampleRate outputSampleRate).length : ℤ) =
        round ((buffer.length : ℚ) * outputSampleRate / inputSampleRate)) := by
  constructor
  · intro h
    unfold downsampleBuffer
    rw [if_pos h]
  · intro h
    unfold downsampleBuffer
    rw [if_neg h]
    simp only [downsampleGo_length]
    have harg : (buffer.length : ℚ) / (inputSampleRate / outputSampleRate) =
        (buffer.length : ℚ) * outputSampleRate / inputSampleRate := by
      field_simp
    rw [harg]
    have hnn : (0 : ℚ) ≤ (buffer.length : ℚ) * outputSampleRate / inputSampleRate := by
      positivity
    exact Int.toNat_of_nonneg (round_nonneg_of_nonneg hnn)

theorem C2_downsample_length_witness :
    (0 : ℚ) < 48000 ∧ (0 : ℚ) < 16000 ∧
    ((downsampleBuffer [1, 2, 3, 4, 5, 6] 48000 16000).length : ℤ) =
      round (((6 : ℚ)) * 16000 / 48000) := by
  refine ⟨by norm_num, by norm_num, ?_⟩
  have h := (C2_downsample_length [1, 2, 3, 4, 5, 6] 48000 16000
    (by norm_num) (by norm_num)).2 (by norm_num)
  simpa using h

/-- The window the specification describes for output index `i`: input
indices from `round(i * inputRate/outputRate)` (inclusive) to
`round((i+1) * inputRate/outputRate)` (exclusive), intersected with the
buffer's bounds (`r` is `inputRate/outputRate`). -/
def windowAt (buffer : List ℚ) (r : ℚ) (i : ℕ) : List ℚ :=
  windowSlice buffer ((round ((i : ℚ) * r)).toNat) ((round (((i : ℚ) + 1) * r)).toNat)

/-- The per-index value the specification describes: the mean of the
window's samples, or 0 for an empty window. -/
def downsampleSpecAt (buffer : List ℚ) (r : ℚ) (i : ℕ) : ℚ :=
  let w := windowAt buffer r i
  if 0 < w.length then w.sum / (w.length : ℚ) else 0

theorem downsampleGo_eq_map (buffer : List ℚ) (r : ℚ) :
    ∀ remaining i,
      downsampleGo buffer r i ((round ((i : ℚ) * r)).toNat) remaining =
        (List.range remaining).map (fun j => downsampleSpecAt buffer r (i + j)) := by
  intro remaining
  induction remaining with
  | zero => intro _; rfl
  | succ n ih =>
    intro i
    rw [List.range_succ_eq_map, List.map_cons, List.map_map]
    show (if 0 < (windowAt buffer r i).length then
        (windowAt buffer r i).sum / ((windowAt buffer r i).length : ℚ) else 0) ::
        downsampleGo buffer r (i + 1) ((round (((i : ℚ) + 1) * r)).toNat) n = _
    have hcast : ((i : ℚ) + 1) = (((i + 1 : ℕ)) : ℚ) := by push_cast; ring
    rw [hcast, ih (i + 1)]
    refine congrArg₂ _ rfl ?_
    refine List.map_congr_left ?_
    intro j _
    show downsampleSpecAt buffer r (i + 1 + j) = downsampleSpecAt buffer r (i + (j + 1))
    ring_nf

theorem downsampleBuffer_eq_map (buffer : List ℚ) (inputSampleRate outputSampleRate : ℚ)
    (hne : outputSampleRate ≠ inputSampleRate) :
    downsampleBuffer buffer inputSampleRate outputSampleRate =
      (List.range ((round ((buffer.length : ℚ) /
          (inputSampleRate / outputSampleRate))).toNat)).map
        (downsampleSpecAt buffer (inputSampleRate / outputSampleRate)) := by
  unfold downsampleBuffer
  rw [if_neg hne]
  have h0 : (0 : ℕ) = (round (((0 : ℕ) : ℚ) * (inputSampleRate / outputSampleRate))).toNat := by
    simp
  have := downsampleGo_eq_map buffer (inputSampleRate / outputSampleRate)
    ((round ((buffer.length : ℚ) / (inputSampleRate / outputSampleRate))).toNat) 0
  simp only [Nat.cast_zero, zero_mul, round_zero, Int.toNat_zero, zero_add] at this
  rw [this]

/-- C3: with positive, differing rates, every output sample of
downsampleBuffer whose window is non-empty equals the arithmetic mean of
the input samples whose indices lie in
[round(i * inputRate/outputRate), round((i+1) * inputRate/outputRate))
intersected with the buffer's bounds (src/utils/audioUtils.ts lines 40-55). -/
theorem C3_downsample_window_mean (buffer : List ℚ)
    (inputSampleRate outputSampleRate : ℚ)
    (hin : 0 < inputSampleRate) (hout : 0 < outputSampleRate)
    (hne : outputSampleRate ≠ inputSampleRate) (i : ℕ)
    (hi : i < (downsampleBuffer buffer inputSampleRate outputSampleRate).length)
    (hw : windowAt buffer (inputSampleRate / outputSampleRate) i ≠ []) :
    (downsampleBuffer buffer inputSampleRate outputSampleRate).get ⟨i, hi⟩ =
      (windowAt buffer (inputSampleRate / outputSampleRate) i).sum /
        ((windowAt buffer (inputSampleRate / outputSampleRate) i).length : ℚ) := by
  have e := downsampleBuffer_eq_map buffer inputSampleRate outputSampleRate hne
  rw [List.get_of_eq e]
  simp only [List.get_eq_getElem, List.getElem_map, List.getElem_range, Fin.coe_cast]
  unfold downsampleSpecAt
  simp only []
  rw [if_pos (List.length_pos.mpr hw)]

theorem downsampleExample_eval : downsampleBuffer [3, 5] 2 1 = [4] := by
  norm_num [downsampleBuffer, downsampleGo, windowSlice, round_eq,
    show Int.toNat 2 = 2 from rfl]

theorem downsampleExample_len : 0 < (downsampleBuffer [3, 5] 2 1).length := by
  rw [downsampleExample_eval]
  norm_num

theorem C3_downsample_window_mean_witness :
    (0 : ℚ) < 2 ∧ (0 : ℚ) < 1 ∧ (1 : ℚ) ≠ 2 ∧
      windowAt [3, 5] (2 / 1) 0 ≠ [] ∧
      (downsampleBuffer [3, 5] 2 1).get ⟨0, downsampleExample_len⟩ =
        (windowAt [3, 5] (2 / 1) 0).sum / ((windowAt [3, 5] (2 / 1) 0).length : ℚ) := by
  have hw : windowAt [3, 5] (2 / 1) 0 ≠ [] := by
    norm_num [windowAt, windowSlice, round_eq, show Int.toNat 2 = 2 from rfl]
    exact List.cons_ne_nil _ _
  exact ⟨by norm_num, by norm_num, by norm_num, hw,
    C3_downsample_window_mean [3, 5] 2 1 (by norm_num) (by norm_num) (by norm_num)
      0 downsampleExample_len hw⟩

theorem downsampleGo_mem (buffer : List ℚ) (r : ℚ) :
    ∀ remaining offsetResult offsetBuffer y,
      y ∈ downsampleGo buffer r offsetResult offsetBuffer remaining →
      y = 0 ∨ ∃ w : List ℚ, w.Sublist buffer ∧ w ≠ [] ∧
        y = w.sum / (w.length : ℚ) := by
  intro remaining
  induction remaining with
  | zero =>
    intro _ _ y hy
    simp [downsampleGo] at hy
  | succ n ih =>
    intro offsetResult offsetBuffer y hy
    rw [downsampleGo] at hy
    rcases List.mem_cons.mp hy with h | h
    · set w := windowSlice buffer offsetBuffer
        ((round (((offsetResult : ℚ) + 1) * r)).toNat) with hwdef
      by_cases hl : 0 < w.length
      · right
        refine ⟨w, ?_, List.length_pos.mp hl, ?_⟩
        · rw [hwdef]
          unfold windowSlice
          exact (List.take_sublist _ _).trans (List.drop_sublist _ _)
        · rw [h, if_pos hl]
      · left
        rw [h, if_neg hl]
    · exact ih _ _ y h

theorem list_mean_bounds {m M : ℚ} (w : List ℚ) (hw : w ≠ [])
    (h : ∀ x ∈ w, m ≤ x ∧ x ≤ M) :
    m ≤ w.sum / (w.length : ℚ) ∧ w.sum / (w.length : ℚ) ≤ M := by
  have hlen : (0 : ℚ) < (w.length : ℚ) := by
    exact_mod_cast List.length_pos.mpr hw
  have hup : w.sum ≤ (w.length : ℚ) * M := by
    have := List.sum_le_card_nsmul w M (fun x hx => (h x hx).2)
    simpa [nsmul_eq_mul] using this
  have hdown : (w.length : ℚ) * m ≤ w.sum := by
    have := List.card_nsmul_le_sum w m (fun x hx => (h x hx).1)
    simpa [nsmul_eq_mul] using this
  constructor
  · rw [le_div_iff₀ hlen]
    linarith
  · rw [div_le_iff₀ hlen]
    linarith

theorem downsample_mem_bounds (buffer : List ℚ)
    (inputSampleRate outputSampleRate m M : ℚ) (hm : m ≤ 0) (hM : 0 ≤ M)
    (hb : ∀ x ∈ buffer, m ≤ x ∧ x ≤ M) :
    ∀ y ∈ downsampleBuffer buffer inputSampleRate outputSampleRate,
      m ≤ y ∧ y ≤ M := by
  intro y hy
  unfold downsampleBuffer at hy
  by_cases he : outputSampleRate = inputSampleRate
  · rw [if_pos he] at hy
    exact hb y hy
  · rw [if_neg he] at hy
    rcases downsampleGo_mem buffer _ _ _ _ y hy with h0 | ⟨w, hsub, hne, hmean⟩
    · rw [h0]
      exact ⟨hm, hM⟩
    · rw [hmean]
      exact list_mean_bounds w hne (fun x hx => hb x (hsub.mem hx))

theorem jsClamp_eq_self {q : ℚ} (h1 : -1 ≤ q) (h2 : q ≤ 1) : jsClamp q = q := by
  unfold jsClamp
  rw [min_eq_right h2, max_eq_right h1]

/-- C10: for any interval [m, M] containing 0, an input buffer with all
samples in [m, M] downsamples to outputs in [m, M]; every output is the
mean of a non-empty collection of input samples or exactly 0; and inputs
in [-1, 1] give outputs in [-1, 1], on which the PCM16 clamp is the
identity (src/utils/audioUtils.ts lines 45-55). -/
theorem C10_downsample_preserves_bounds (buffer : List ℚ)
    (inputSampleRate outputSampleRate m M : ℚ) (hm : m ≤ 0) (hM : 0 ≤ M)
    (hb : ∀ x ∈ buffer, m ≤ x ∧ x ≤ M) :
    (∀ y ∈ downsampleBuffer buffer inputSampleRate outputSampleRate,
        m ≤ y ∧ y ≤ M) ∧
    (∀ y ∈ downsampleBuffer buffer inputSampleRate outputSampleRate,
        y = 0 ∨ ∃ w : List ℚ, w.Sublist buffer ∧ w ≠ [] ∧
          y = w.sum / (w.length : ℚ)) ∧
    ((∀ x ∈ buffer, -1 ≤ x ∧ x ≤ 1) →
      ∀ y ∈ downsampleBuffer buffer inputSampleRate outputSampleRate,
        jsClamp y = y) := by
  refine ⟨downsample_mem_bounds buffer _ _ m M hm hM hb, ?_, ?_⟩
  · intro y hy
    unfold downsampleBuffer at hy
    by_cases he : outputSampleRate = inputSampleRate
    · rw [if_pos he] at hy
      right
      refine ⟨[y], List.singleton_sublist.mpr hy, by simp, by simp⟩
    · rw [if_neg he] at hy
      exact downsampleGo_mem buffer _ _ _ _ y hy
  · intro h1 y hy
    have := downsample_mem_bounds buffer inputSampleRate outputSampleRate (-1) 1
      (by norm_num) (by norm_num) h1 y hy
    exact jsClamp_eq_self this.1 this.2

theorem C10_downsample_preserves_bounds_witness :
    ((-1 : ℚ) ≤ 0 ∧ (0 : ℚ) ≤ 1) ∧ (-1 : ℚ) ≤ 4 - 4 ∧ (4 - 4 : ℚ) ≤ 1 := by
  have hb : ∀ x ∈ ([3 - 3, 5 - 5] : List ℚ), (-1 : ℚ) ≤ x ∧ x ≤ 1 := by
    intro x hx
    rcases List.mem_cons.mp hx with h | h
    · rw [h]; norm_num
    · rw [List.mem_singleton.mp h]; norm_num
  have hmem : (4 - 4 : ℚ) ∈ downsampleBuffer [3 - 3, 5 - 5] 2 1 := by
    have he : downsampleBuffer [3 - 3, 5 - 5] 2 1 = [0] := by
      norm_num [downsampleBuffer, downsampleGo, windowSlice, round_eq,
        show Int.toNat 2 = 2 from rfl]
    rw [he]
    norm_num
  exact ⟨⟨by norm_num, by norm_num⟩,
    (C10_downsample_preserves_bounds [3 - 3, 5 - 5] 2 1 (-1) 1
      (by norm_num) (by norm_num) hb).1 (4 - 4) hmem⟩

set_option linter.unusedVariables false

/-!
Data model (src/types.ts, provided as src/unnamed/part_000) and the
meeting lifecycle (src/App.tsx) with the live client resources
(src/services/geminiService.ts).

The stateful, callback-driven TypeScript is embedded as explicit state
passing: each handler is a function from the current React state (plus
the outcomes of the external calls it performs) to the next state
together with the ordered list of observable effects it performs.
External collaborators (getDisplayMedia / getUserMedia, the Gemini
session, generateMinutes) are parameters: their outcomes are passed in as
`Except` values, and the calls the handler makes to them are recorded as
events.
-/

/-- MeetingStatus (src/types.ts lines 1-6). -/
inductive MeetingStatus where
  | IDLE
  | RECORDING
  | PROCESSING
  | REVIEWING
deriving DecidableEq

/-- AudioSourceType (src/types.ts line 28); the source spells the second
variant SYSTEM_AUDIO. -/
inductive AudioSourceType where
  | MICROPHONE
  | SYSTEM_AUDIO_KIND
deriving DecidableEq

/-- One action item of MeetingMinutes (src/types.ts lines 21-25). -/
structure ActionItem where
  task : String
  assignee : String
  deadline : Option String
deriving DecidableEq

/-- MeetingMinutes (src/types.ts lines 14-26). -/
structure MeetingMinutes where
  title : String
  date : String
  attendees : List String
  agenda : List String
  discussionPoints : List String
  decisions : List String
  actionItems : List ActionItem
deriving DecidableEq

/-- Observable effects of the handlers and of the live client. -/
inductive AppEvent where
  | setStatus (s : MeetingStatus)
  | trackStop
  | processorDisconnect
  | inputSourceDisconnect
  | audioContextClose
  | sessionCloseRequest
  | generateMinutesCall
  | sendRealtimeInput
deriving DecidableEq

/-- The resource fields of LiveTranscriptionClient
(src/services/geminiService.ts lines 10-15): which of
`processor`, `inputSource`, `audioContext`, `mediaStream` and
`sessionPromise` are currently non-null; `mediaTracks` carries the track
count of the held MediaStream. -/
structure ClientState where
  hasProcessor : Bool
  hasInputSource : Bool
  hasAudioContext : Bool
  mediaTracks : Option ℕ
  hasSessionPromise : Bool
deriving DecidableEq

namespace LiveTranscriptionClient

/-- disconnect (src/services/geminiService.ts lines 105-122): disconnects
the processor, disconnects the input source, closes the audio context,
then stops every media track, nulling each field; `sessionPromise` is not
touched by the source, so it is carried over unchanged and no
session-close request is ever emitted. -/
def disconnect (c : ClientState) : ClientState × List AppEvent :=
  let e1 := if c.hasProcessor then [AppEvent.processorDisconnect] else []
  let e2 := if c.hasInputSource then [AppEvent.inputSourceDisconnect] else []
  let e3 := if c.hasAudioContext then [AppEvent.audioContextClose] else []
  let e4 := match c.mediaTracks with
    | some n => List.replicate n AppEvent.trackStop
    | none => []
  (⟨false, false, false, none, c.hasSessionPromise⟩, e1 ++ e2 ++ e3 ++ e4)

end LiveTranscriptionClient

/-- A MediaStream as the lifecycle code observes it: how many audio and
video tracks it carries. -/
structure MediaStream where
  audioTracks : ℕ
  videoTracks : ℕ
deriving DecidableEq

/-- The React state of App (src/App.tsx lines 9-21): `status`,
`transcript`, `minutes`, `error`, and whether `liveClientRef.current` is
non-null (with the client's resource state). `transcriptRef` mirrors
`transcript` (src/App.tsx lines 26-32), so a single field suffices. -/
structure AppState where
  status : MeetingStatus
  transcript : String
  minutes : Option MeetingMinutes
  error : Option String
  liveClient : Option ClientState
deriving DecidableEq

/-- The client state right after connectAndStart and startAudioStreaming
have wired everything up (src/services/geminiService.ts lines 31-103). -/
def connectedClient (tracks : ℕ) : ClientState :=
  ⟨true, true, true, some tracks, true⟩

/-- Error message thrown for a display stream with no audio track
(src/App.tsx line 103). -/
def noAudioTrackMessage : String :=
  "NO AUDIO DETECTED. You likely selected \x27Window\x27 or forgot the checkbox.\n\nSOLUTION: Select \x27Entire Screen\x27 or \x27Tab\x27 and ensure \x27Share system audio\x27 is checked."

/-- Error message for a missing API key (src/App.tsx line 72). -/
def missingApiKeyMessage : String :=
  "Missing API Key. Please configure your .env file with a valid Google GenAI API Key."

/-- Error message for a transcript below the 10-character threshold
(src/App.tsx line 161). -/
def transcriptTooShortMessage : String :=
  "Transcript too short to generate minutes. Please ensure audio was being shared."

/-- Error message when generateMinutes fails (src/App.tsx line 173). -/
def generationFailedMessage : String :=
  "Failed to generate minutes. Please try again."

/-- handleStartRecording (src/App.tsx lines 69-148), with the acquisition
outcome passed in: `Except.error` is a rejected getDisplayMedia /
getUserMedia call.  For SYSTEM_AUDIO_KIND a rejection is swallowed (`return`,
line 92); the zero-audio-track check stops every track of the stream and
throws, landing in the outer catch which records the error and sets the
status to IDLE (lines 97-103 and 144-147).  Otherwise the handler sets
RECORDING, clears the transcript and wires up the live client
(lines 113-131). -/
def handleStartRecording (st : AppState) (apiKeyPresent : Bool)
    (sourceType : AudioSourceType) (acq : Except String MediaStream) :
    AppState × List AppEvent :=
  let st0 := { st with error := none }
  if apiKeyPresent = false then
    ({ st0 with error := some missingApiKeyMessage }, [])
  else
    match sourceType, acq with
    | .SYSTEM_AUDIO_KIND, .error _ => (st0, [])
    | .SYSTEM_AUDIO_KIND, .ok stream =>
      if stream.audioTracks = 0 then
        ({ st0 with error := some noAudioTrackMessage, status := .IDLE },
          List.replicate (stream.videoTracks + stream.audioTracks) .trackStop ++
            [.setStatus .IDLE])
      else
        ({ st0 with
            status := .RECORDING
            transcript := ""
            liveClient :=
              some (connectedClient (stream.videoTracks + stream.audioTracks)) },
          [.setStatus .RECORDING])
    | .MICROPHONE, .error e =>
      ({ st0 with error := some e, status := .IDLE }, [.setStatus .IDLE])
    | .MICROPHONE, .ok stream =>
      ({ st0 with
          status := .RECORDING
          transcript := ""
          liveClient := some (connectedClient stream.audioTracks) },
        [.setStatus .RECORDING])

/-- JavaScript String.prototype.trim (used at src/App.tsx line 160):
drops whitespace from both ends. -/
def jsTrim (s : String) : String :=
  String.mk
    (((s.data.dropWhile Char.isWhitespace).reverse.dropWhile
        Char.isWhitespace).reverse)

/-- handleStopRecording (src/App.tsx lines 150-178), with the
generateMinutes outcome passed in.  It first disconnects and nulls the
live client if present; from RECORDING it moves to PROCESSING, rejects a
transcript whose trimmed length is below 10 back to IDLE without calling
generateMinutes, and otherwise calls generateMinutes, storing the minutes
and reaching REVIEWING on success or returning to IDLE on failure; from
any other status it just sets IDLE. -/
def handleStopRecording (st : AppState) (gen : Except Unit MeetingMinutes) :
    AppState × List AppEvent :=
  let step :=
    match st.liveClient with
    | some c => ({ st with liveClient := none },
        (LiveTranscriptionClient.disconnect c).2)
    | none => (st, ([] : List AppEvent))
  let st1 := step.1
  let evs1 := step.2
  if st1.status = .RECORDING then
    if (jsTrim st1.transcript).length < 10 then
      ({ st1 with status := .IDLE, error := some transcriptTooShortMessage },
        evs1 ++ [.setStatus .PROCESSING, .setStatus .IDLE])
    else
      match gen with
      | .ok m =>
        ({ st1 with status := .REVIEWING, minutes := some m },
          evs1 ++ [.setStatus .PROCESSING, .generateMinutesCall,
            .setStatus .REVIEWING])
      | .error _ =>
        ({ st1 with status := .IDLE, error := some generationFailedMessage },
          evs1 ++ [.setStatus .PROCESSING, .generateMinutesCall,
            .setStatus .IDLE])
  else
    ({ st1 with status := .IDLE }, evs1 ++ [.setStatus .IDLE])

theorem disconnect_events_only_release (c : ClientState) (s : MeetingStatus) :
    AppEvent.generateMinutesCall ∉ (LiveTranscriptionClient.disconnect c).2 ∧
    AppEvent.setStatus s ∉ (LiveTranscriptionClient.disconnect c).2 := by
  unfold LiveTranscriptionClient.disconnect
  rcases c with ⟨p, i, a, m, se⟩
  cases p <;> cases i <;> cases a <;> rcases m with _ | n <;>
    simp [List.mem_replicate]

/-- C4: from IDLE, handleStartRecording with SYSTEM_AUDIO_KIND and an acquired
display stream carrying zero audio tracks never transitions to RECORDING:
the state stays IDLE, the NoAudioTrack remediation message is surfaced,
no RECORDING status is ever set, and every track of the stream is stopped
(src/App.tsx lines 97-103 and 144-147). -/
theorem C4_start_no_audio_track_stays_idle (st : AppState) (stream : MediaStream)
    (hidle : st.status = MeetingStatus.IDLE) (hzero : stream.audioTracks = 0) :
    (handleStartRecording st true .SYSTEM_AUDIO_KIND (.ok stream)).1.status =
      MeetingStatus.IDLE ∧
    (handleStartRecording st true .SYSTEM_AUDIO_KIND (.ok stream)).1.error =
      some noAudioTrackMessage ∧
    AppEvent.setStatus .RECORDING ∉
      (handleStartRecording st true .SYSTEM_AUDIO_KIND (.ok stream)).2 ∧
    (handleStartRecording st true .SYSTEM_AUDIO_KIND (.ok stream)).2.count
      AppEvent.trackStop = stream.videoTracks + stream.audioTracks := by
  unfold handleStartRecording
  simp [hzero, List.mem_replicate, List.count_append, List.count_replicate,
    List.count_cons, List.count_nil]

theorem C4_start_no_audio_track_witness :
    (handleStartRecording ⟨.IDLE, "", none, none, none⟩ true .SYSTEM_AUDIO_KIND
      (.ok ⟨0, 1⟩)).1.status = MeetingStatus.IDLE ∧
    (handleStartRecording ⟨.IDLE, "", none, none, none⟩ true .SYSTEM_AUDIO_KIND
      (.ok ⟨0, 1⟩)).1.error = some noAudioTrackMessage ∧
    AppEvent.setStatus .RECORDING ∉
      (handleStartRecording ⟨.IDLE, "", none, none, none⟩ true .SYSTEM_AUDIO_KIND
        (.ok ⟨0, 1⟩)).2 ∧
    (handleStartRecording ⟨.IDLE, "", none, none, none⟩ true .SYSTEM_AUDIO_KIND
      (.ok ⟨0, 1⟩)).2.count AppEvent.trackStop = 1 := by
  have h := C4_start_no_audio_track_stays_idle ⟨.IDLE, "", none, none, none⟩
    ⟨0, 1⟩ rfl rfl
  exact ⟨h.1, h.2.1, h.2.2.1, h.2.2.2⟩

/-- C5: handleStopRecording from RECORDING with an accumulated transcript
whose trimmed length is below the 10-character threshold ends in IDLE
(never REVIEWING), surfaces the too-short validation message, and never
invokes generateMinutes, for every possible generateMinutes outcome
(src/App.tsx lines 156-169). -/
theorem C5_stop_short_transcript (st : AppState) (gen : Except Unit MeetingMinutes)
    (hrec : st.status = MeetingStatus.RECORDING)
    (hshort : (jsTrim st.transcript).length < 10) :
    (handleStopRecording st gen).1.status = MeetingStatus.IDLE ∧
    (handleStopRecording st gen).1.error = some transcriptTooShortMessage ∧
    AppEvent.generateMinutesCall ∉ (handleStopRecording st gen).2 ∧
    AppEvent.setStatus .REVIEWING ∉ (handleStopRecording st gen).2 := by
  unfold handleStopRecording
  rcases hlc : st.liveClient with _ | c
  · simp [hrec, hshort]
  · have hgen := disconnect_events_only_release c MeetingStatus.REVIEWING
    simp [hrec, hshort, hgen.1, hgen.2]

theorem C5_stop_short_transcript_witness :
    (handleStopRecording
      ⟨.RECORDING, "hi", none, none, some (connectedClient 2)⟩
      (.ok ⟨"", "", [], [], [], [], []⟩)).1.status = MeetingStatus.IDLE ∧
    (handleStopRecording
      ⟨.RECORDING, "hi", none, none, some (connectedClient 2)⟩
      (.ok ⟨"", "", [], [], [], [], []⟩)).1.error =
        some transcriptTooShortMessage ∧
    AppEvent.generateMinutesCall ∉ (handleStopRecording
      ⟨.RECORDING, "hi", none, none, some (connectedClient 2)⟩
      (.ok ⟨"", "", [], [], [], [], []⟩)).2 ∧
    AppEvent.setStatus .REVIEWING ∉ (handleStopRecording
      ⟨.RECORDING, "hi", none, none, some (connectedClient 2)⟩
      (.ok ⟨"", "", [], [], [], [], []⟩)).2 :=
  C5_stop_short_transcript
    ⟨.RECORDING, "hi", none, none, some (connectedClient 2)⟩
    (.ok ⟨"", "", [], [], [], [], []⟩) rfl (by decide)

/-- The transcription callback installed by handleStartRecording
(src/App.tsx lines 118-121): `setTranscript(prev => prev + " " + newText)`. -/
def appendTranscript (prev newText : String) : String := prev ++ " " ++ newText

/-- The accumulated transcript after the callback has delivered the given
texts in arrival order, starting from the cleared transcript `""`
(src/App.tsx lines 115 and 118-121). -/
def accumulateTranscript (texts : List String) : String :=
  texts.foldl appendTranscript ""

/-- The string the claim describes: the texts joined by exactly one
separating space, with nothing before the first text. -/
def spaceSeparated : List String → String
  | [] => ""
  | [t] => t
  | t :: rest => t ++ " " ++ spaceSeparated rest

theorem C6_counterexample :
    accumulateTranscript ["a"] = " a" ∧ spaceSeparated ["a"] = "a" ∧
      accumulateTranscript ["a"] ≠ spaceSeparated ["a"] := by decide

theorem foldl_appendTranscript (ts : List String) :
    ∀ acc t, (t :: ts).foldl appendTranscript acc =
      acc ++ " " ++ spaceSeparated (t :: ts) := by
  induction ts with
  | nil =>
    intro acc t
    simp [appendTranscript, spaceSeparated]
  | cons r rs ih =>
    intro acc t
    show (r :: rs).foldl appendTranscript (appendTranscript acc t) = _
    rw [ih (appendTranscript acc t) r]
    show acc ++ " " ++ t ++ " " ++ spaceSeparated (r :: rs) =
      acc ++ " " ++ (t ++ " " ++ spaceSeparated (r :: rs))
    simp [String.append_assoc]

/-- C6 (amended): after appending texts t1, ..., tn (n ≥ 1) in arrival
order, the accumulated transcript is the space-separated concatenation
"t1 t2 ... tn" prefixed by one leading space, because the callback starts
from the cleared transcript "" and prepends a space before every text
(src/App.tsx lines 115 and 118-121). -/
theorem C6_accumulate_leading_space (t : String) (ts : List String) :
    accumulateTranscript (t :: ts) = " " ++ spaceSeparated (t :: ts) := by
  unfold accumulateTranscript
  rw [foldl_appendTranscript ts "" t]
  simp

/-!
C7 and C8 concern LiveTranscriptionClient.disconnect
(src/services/geminiService.ts lines 105-122) and the audio-processing
callback installed by startAudioStreaming (lines 83-99).  The callback
executes `this.sessionPromise?.then((session) =>
session.sendRealtimeInput({ media: pcmBlob }))`: when `sessionPromise` is
non-null it enqueues a continuation that performs the send when it later
runs.  `disconnect` detaches the processor (so no further audio callbacks
fire) but neither cancels nor awaits already-enqueued continuations and
never touches `sessionPromise`.  The cooperative interleaving of audio
callbacks, pending send continuations and the stop call is modelled as a
small transition system; each emitted send event is tagged with whether
stop had already begun when it fired.
-/

/-- The interleaving state: whether the processor is still attached
(audio callbacks can fire), whether `sessionPromise` is non-null, how
many send continuations are enqueued but not yet run, and whether
disconnect has begun. -/
structure StreamSys where
  processorActive : Bool
  sessionPromiseSet : Bool
  pending : ℕ
  stopBegun : Bool
deriving DecidableEq

/-- The schedulable steps: one audio-processing callback, running one
pending send continuation, and the stop (disconnect) call. -/
inductive SysAction where
  | audioCallback
  | resolvePending
  | stopCall
deriving DecidableEq

/-- One cooperative step.  An audio callback enqueues a send continuation
when the processor is attached and `sessionPromise` is non-null
(src/services/geminiService.ts lines 94-97); running a pending
continuation performs `sendRealtimeInput`, tagged with the current value
of `stopBegun`; the stop call detaches the processor and marks stop begun,
leaving `sessionPromise` and the pending queue untouched, exactly as
disconnect does (lines 105-122). -/
def sysStep (s : StreamSys) (a : SysAction) : StreamSys × List (Bool × AppEvent) :=
  match a with
  | .audioCallback =>
    if s.processorActive && s.sessionPromiseSet then
      ({ s with pending := s.pending + 1 }, [])
    else (s, [])
  | .resolvePending =>
    match s.pending with
    | 0 => (s, [])
    | n + 1 => ({ s with pending := n }, [(s.stopBegun, AppEvent.sendRealtimeInput)])
  | .stopCall =>
    ({ s with processorActive := false, stopBegun := true }, [])

/-- Runs a schedule of steps, concatenating the emitted events. -/
def sysRun : StreamSys → List SysAction → StreamSys × List (Bool × AppEvent)
  | s, [] => (s, [])
  | s, a :: rest =>
    let p := sysStep s a
    let q := sysRun p.1 rest
    (q.1, p.2 ++ q.2)

/-- C7 (code bug): disconnect on a fully connected client stops the audio
frames first (processor, then input source), then closes the audio
context and stops the media tracks, but it never requests the
transcription session's flush-and-close: no session-close request appears
in its effects and `sessionPromise` is still non-null afterwards
(src/services/geminiService.ts lines 105-122 release every resource
except the network session). -/
theorem C7_disconnect_never_closes_session :
    (LiveTranscriptionClient.disconnect (connectedClient 2)).2 =
      [AppEvent.processorDisconnect, AppEvent.inputSourceDisconnect,
        AppEvent.audioContextClose, AppEvent.trackStop, AppEvent.trackStop] ∧
    AppEvent.sessionCloseRequest ∉
      (LiveTranscriptionClient.disconnect (connectedClient 2)).2 ∧
    (LiveTranscriptionClient.disconnect (connectedClient 2)).1.hasSessionPromise =
      true := by decide

/-- C8 (code bug): there is an interleaving in which an EncodedAudioChunk
is sent after stop() has begun: one audio callback enqueues a send
continuation, disconnect then runs to completion, and the still-pending
continuation fires `sendRealtimeInput` afterwards — the emitted send event
is tagged with `stopBegun = true` (src/services/geminiService.ts lines
94-97 enqueue the send through `sessionPromise.then`, and lines 105-122
neither cancel nor await it). -/
theorem C8_send_after_stop_possible :
    (sysRun ⟨true, true, 0, false⟩
      [.audioCallback, .stopCall, .resolvePending]).2 =
      [(true, AppEvent.sendRealtimeInput)] ∧
    (sysRun ⟨true, true, 0, false⟩
      [.audioCallback, .stopCall, .resolvePending]).1.stopBegun = true := by decide

/-- Events that release a session resource (media tracks, audio nodes,
audio context, or the network session). -/
def isReleaseEvent : AppEvent → Bool
  | .trackStop => true
  | .processorDisconnect => true
  | .inputSourceDisconnect => true
  | .audioContextClose => true
  | .sessionCloseRequest => true
  | _ => false

theorem C9_counterexample :
    (handleStopRecording
      ⟨.RECORDING, "a sufficiently long transcript", none, none,
        some (connectedClient 2)⟩ (.ok ⟨"", "", [], [], [], [], []⟩)).1.status =
      MeetingStatus.REVIEWING ∧
    (handleStopRecording
      (handleStopRecording
        ⟨.RECORDING, "a sufficiently long transcript", none, none,
          some (connectedClient 2)⟩ (.ok ⟨"", "", [], [], [], [], []⟩)).1
      (.ok ⟨"", "", [], [], [], [], []⟩)).1.status = MeetingStatus.IDLE ∧
    (handleStopRecording
      (handleStopRecording
        ⟨.RECORDING, "a sufficiently long transcript", none, none,
          some (connectedClient 2)⟩ (.ok ⟨"", "", [], [], [], [], []⟩)).1
      (.ok ⟨"", "", [], [], [], [], []⟩)).1.status ≠
      (handleStopRecording
        ⟨.RECORDING, "a sufficiently long transcript", none, none,
          some (connectedClient 2)⟩ (.ok ⟨"", "", [], [], [], [], []⟩)).1.status := by
  decide

/-- C9 (amended): a second stop after a completed first stop performs no
further resource release — with the live client already nulled, no
release event is emitted — and LiveTranscriptionClient.disconnect itself
is idempotent; the second handleStopRecording leaves the state unchanged
when the first call ended in IDLE, but it resets the status to IDLE when
the first call ended in REVIEWING (src/App.tsx lines 150-178 and
src/services/geminiService.ts lines 105-122). -/
theorem C9_stop_idempotent_amended (st : AppState) (gen : Except Unit MeetingMinutes)
    (hlc : st.liveClient = none) :
    (handleStopRecording st gen).2.filter isReleaseEvent = [] ∧
    (st.status = MeetingStatus.IDLE → (handleStopRecording st gen).1 = st) ∧
    (st.status = MeetingStatus.REVIEWING →
      (handleStopRecording st gen).1 = { st with status := MeetingStatus.IDLE }) ∧
    (∀ c : ClientState,
      LiveTranscriptionClient.disconnect (LiveTranscriptionClient.disconnect c).1 =
        ((LiveTranscriptionClient.disconnect c).1, [])) := by
  refine ⟨?_, ?_, ?_, ?_⟩
  · rcases gen with u | m <;>
    · unfold handleStopRecording
      simp only [hlc]
      split_ifs <;> simp [isReleaseEvent]
  · intro hidle
    unfold handleStopRecording
    simp only [hlc]
    rw [if_neg (by rw [hidle]; intro h; exact MeetingStatus.noConfusion h)]
    rcases st with ⟨stat, tr, mi, er, lc⟩
    simp_all
  · intro hrev
    unfold handleStopRecording
    simp only [hlc]
    rw [if_neg (by rw [hrev]; intro h; exact MeetingStatus.noConfusion h)]
  · intro c
    rfl

theorem C9_stop_idempotent_witness :
    (handleStopRecording ⟨.IDLE, "x", none, none, none⟩
        (.ok ⟨"", "", [], [], [], [], []⟩)).1 =
      ⟨.IDLE, "x", none, none, none⟩ :=
  (C9_stop_idempotent_amended ⟨.IDLE, "x", none, none, none⟩
    (.ok ⟨"", "", [], [], [], [], []⟩) rfl).2.1 rfl
